import Mathlib

/-!
# Verification of the smspanel asynchronous delivery subsystem

A shallow embedding of the core of the `smspanel` repository:

* `RateLimiter` — token bucket from `src/smspanel/utils/rate_limiter.py`;
* `TaskQueue` / worker loop — from `src/smspanel/services/queue.py`,
  with Python's `queue.PriorityQueue` modelled by its documented contract
  (bounded, `get` retrieves the lowest-valued entry);
* `DeadLetterQueue` — from `src/smspanel/services/dead_letter.py` and the
  `DeadLetterMessage` model from `src/smspanel/models.py`.

Machine floats of the Python source are modelled by rationals (`ℚ`); time
stamps (`time.monotonic()` readings) are passed explicitly as rational
parameters.  Database records live in association lists; exceptions are
modelled as an explicit error slot threaded through each statement, with
combinators mirroring Python `try`/`except`/`finally` blocks.
-/

/-! ## RateLimiter (utils/rate_limiter.py) -/

/-- Token bucket state: `rate_per_sec`, `burst_capacity`, `_tokens`,
`_last_update`, translated from `RateLimiter.__init__`.  The mutex is not
modelled: every operation below is the body of one locked section. -/
structure RateLimiter where
  rate_per_sec : ℚ
  burst_capacity : ℚ
  tokens : ℚ
  last_update : ℚ
deriving DecidableEq, Repr

namespace RateLimiter

/-- Translation of `RateLimiter.__init__(rate_per_sec=2.0, burst_capacity=None)`: the burst
capacity defaults to the rate, the bucket starts full, `_last_update` is the
construction-time clock reading `now`. -/
def init (rate : ℚ) (burst : Option ℚ) (now : ℚ) : RateLimiter :=
  let b := burst.getD rate
  { rate_per_sec := rate, burst_capacity := b, tokens := b, last_update := now }

/-- Translation of `RateLimiter._add_tokens`: refill `elapsed * rate_per_sec` tokens, capped
at `burst_capacity`, only when `elapsed > 0`. -/
def addTokens (now : ℚ) (s : RateLimiter) : RateLimiter :=
  let elapsed := now - s.last_update
  if 0 < elapsed then
    { s with tokens := min s.burst_capacity (s.tokens + elapsed * s.rate_per_sec),
             last_update := now }
  else s

/-- Translation of `RateLimiter.try_acquire`: refill, then consume one token when at least
one whole token is available. -/
def tryAcquire (now : ℚ) (s : RateLimiter) : Bool × RateLimiter :=
  let s1 := addTokens now s
  if 1 ≤ s1.tokens then (true, { s1 with tokens := s1.tokens - 1 })
  else (false, s1)

/-- Translation of `RateLimiter.acquire(timeout)`: each loop iteration performs, under the
lock, exactly the refill-and-conditional-decrement of `try_acquire`; between
iterations it sleeps.  `times` lists the clock reading of each iteration (the
timeout only bounds how many iterations happen, i.e. the length of `times`).
Returns `false` once the iterations are exhausted without a token. -/
def acquireSteps : List ℚ → RateLimiter → Bool × RateLimiter
  | [], s => (false, s)
  | now :: rest, s =>
      let r := tryAcquire now s
      if r.1 then (true, r.2) else acquireSteps rest r.2

/-- Translation of `RateLimiter.get_tokens`: refill, then report the current token count. -/
def getTokens (now : ℚ) (s : RateLimiter) : ℚ × RateLimiter :=
  let s1 := addTokens now s
  (s1.tokens, s1)

end RateLimiter

/-- From `config/config.py`: `SMS_RATE_PER_SEC: float = 2.0`. -/
def SMS_RATE_PER_SEC : ℚ := 2

/-- From `config/config.py`: `SMS_BURST_CAPACITY: int = 4`. -/
def SMS_BURST_CAPACITY : ℚ := 4

/-- Translation of `app.py::_init_rate_limiter`: builds the process-wide limiter from
`SMS_RATE_PER_SEC` / `SMS_BURST_CAPACITY` (application default configuration)
via `init_rate_limiter`, which calls `RateLimiter(rate, burst)`. -/
def initRateLimiterAppDefault (now : ℚ) : RateLimiter :=
  RateLimiter.init SMS_RATE_PER_SEC (some SMS_BURST_CAPACITY) now

/-- One bucket observation/mutation, for stating the C5 invariant: a
`try_acquire` call, one `acquire` call (with its iteration clock readings),
or a `get_tokens` call, each at a caller-chosen clock reading. -/
inductive RLOp where
  | tryAcq : ℚ → RLOp
  | acq : List ℚ → RLOp
  | getTok : ℚ → RLOp
deriving Repr

/-- Effect of one operation on the bucket state. -/
def RLOp.apply (op : RLOp) (s : RateLimiter) : RateLimiter :=
  match op with
  | .tryAcq now => (RateLimiter.tryAcquire now s).2
  | .acq times => (RateLimiter.acquireSteps times s).2
  | .getTok now => (RateLimiter.getTokens now s).2

/-- State after a sequence of operations. -/
def RLOp.applyAll (ops : List RLOp) (s : RateLimiter) : RateLimiter :=
  ops.foldl (fun t op => op.apply t) s

/-- The C5 invariant: `0 ≤ currentTokens ≤ capacity`. -/
def RateLimiter.Inv (s : RateLimiter) : Prop :=
  0 ≤ s.tokens ∧ s.tokens ≤ s.burst_capacity

/-- The refill value in the spec's words: `elapsed * refillRatePerSecond`
tokens added, capped at capacity, applied only when time has elapsed. -/
def refillSpec (s : RateLimiter) (now : ℚ) : ℚ :=
  if s.last_update < now then
    min s.burst_capacity (s.tokens + (now - s.last_update) * s.rate_per_sec)
  else s.tokens

/-- Runs `n` consecutive `try_acquire` calls, all at clock reading `now`,
collecting the returned booleans. -/
def tryAcquireRun : ℕ → ℚ → RateLimiter → List Bool × RateLimiter
  | 0, _, s => ([], s)
  | n+1, now, s =>
      let r := RateLimiter.tryAcquire now s
      let rest := tryAcquireRun n now r.2
      (r.1 :: rest.1, rest.2)

/-! ## TaskQueue admission and ordering (services/queue.py)

`TaskQueue.enqueue` executes `self.queue.put((priority, (task_func, args,
kwargs)), block=False)` on a `queue.PriorityQueue(maxsize=max_queue_size)`.
The stdlib priority queue is modelled by its contract: `put` appends when
the bound allows (raising `Full` exactly when `0 < maxsize` and the current
size has reached it), and `get` removes and returns the lowest-valued
entry.  Entries compare as Python tuples: first by `priority`, then — for
equal priorities — by the payload `(task_func, args, kwargs)`; for the SMS
tasks the function objects are equal and comparison falls through to the
`args` tuple, headed by the integer message id.  An entry is therefore
modelled as the pair `(priority, payload comparison key)`.  There is no
insertion-sequence counter anywhere in `enqueue`. -/

/-- A queue entry `(priority, payload key)`. -/
abbrev QEntry := ℕ × ℕ

/-- Python tuple comparison, strict: lexicographic on `(priority, key)`. -/
def qlt (a b : QEntry) : Prop :=
  a.1 < b.1 ∨ (a.1 = b.1 ∧ a.2 < b.2)

/-- Python tuple comparison, non-strict. -/
def qle (a b : QEntry) : Prop :=
  a.1 < b.1 ∨ (a.1 = b.1 ∧ a.2 ≤ b.2)

instance (a b : QEntry) : Decidable (qlt a b) := by unfold qlt; infer_instance

instance (a b : QEntry) : Decidable (qle a b) := by unfold qle; infer_instance

/-- The smaller of the accumulator and the next element, as the heap's
comparisons see it; folding it over the backing list yields the entry
`heapq` pops. -/
def minEntry (a : QEntry) (l : List QEntry) : QEntry :=
  l.foldl (fun acc x => if qlt x acc then x else acc) a

/-- Remove the first occurrence of `e` from `l` (the effect of a heap pop
on the backing list, up to heap-internal reordering of equal elements). -/
def eraseFirst : List QEntry → QEntry → List QEntry
  | [], _ => []
  | x :: xs, e => if x = e then xs else x :: eraseFirst xs e

/-- The queue owned by `TaskQueue.__init__`:
`queue.PriorityQueue(maxsize=max_queue_size)` plus its backing items. -/
structure TaskQueue where
  maxsize : ℕ
  items : List QEntry
deriving DecidableEq, Repr

/-- Translation of `TaskQueue.enqueue`: `put(..., block=False)` raises `queue.Full` exactly
when `0 < maxsize` and the queue already holds `maxsize` items, in which
case `enqueue` returns `False` and the queue is unchanged; otherwise the
entry is stored and `enqueue` returns `True`. -/
def TaskQueue.enqueue (q : TaskQueue) (e : QEntry) : Bool × TaskQueue :=
  if 0 < q.maxsize ∧ q.maxsize ≤ q.items.length then (false, q)
  else (true, { q with items := q.items ++ [e] })

/-- A whole sequence of `enqueue` calls, keeping the final queue. -/
def TaskQueue.enqueueAll (q : TaskQueue) (es : List QEntry) : TaskQueue :=
  es.foldl (fun t e => (t.enqueue e).2) q

/-- Translation of `self.queue.get(...)`: remove and return the lowest entry (`heapq` pop). -/
def TaskQueue.get (q : TaskQueue) : Option (QEntry × TaskQueue) :=
  match q.items with
  | [] => none
  | a :: l =>
      let m := minEntry a l
      some (m, { q with items := eraseFirst (a :: l) m })

/-- The sequence of entries obtained by repeated `get` until empty,
fuel-indexed for structural recursion. -/
def drainAux : ℕ → List QEntry → List QEntry
  | 0, _ => []
  | _ + 1, [] => []
  | fuel + 1, a :: l =>
      let m := minEntry a l
      m :: drainAux fuel (eraseFirst (a :: l) m)

/-- All entries of a backing list in the order repeated `get` yields them. -/
def drain (l : List QEntry) : List QEntry := drainAux l.length l

/-! ## Job status model (spec section 3; models imported by services/queue.py) -/

/-- Modelled from the spec: the `MessageJobStatus` enum
`{PENDING, SENDING, COMPLETED, PARTIAL, FAILED}` that `services/queue.py`
imports from `smspanel.models`; its declaration is missing from this
snapshot's `models.py`, and the spec's section 3 lists exactly these
members. -/
inductive MessageJobStatus where
  | PENDING
  | SENDING
  | COMPLETED
  | PARTIAL
  | FAILED
deriving DecidableEq, Repr

/-- Modelled from the spec: the `RecipientStatus` enum `{PENDING, SENT,
FAILED}` that `TaskQueue._update_message_final_status` filters on; its
declaration is missing from this snapshot's `models.py`. -/
inductive RecipientStatus where
  | PENDING
  | SENT
  | FAILED
deriving DecidableEq, Repr

/-- A recipient row as the queue reads it (`message.recipients`). -/
structure Recipient where
  phone : String
  status : RecipientStatus
deriving DecidableEq, Repr

/-- A message row: the fields `TaskQueue` touches (`job_status`,
`queue_position`) together with its recipient rows. -/
structure Message where
  job_status : MessageJobStatus
  queue_position : Option ℕ
  recipients : List Recipient
deriving DecidableEq, Repr

/-- The message table keyed by id; `session.get(Message, id)` is `lookup`. -/
abbrev Db := List (ℕ × Message)

/-- Replace the row with key `id` (commit of a mutated ORM object). -/
def dbUpdate (db : Db) (id : ℕ) (m : Message) : Db :=
  db.map (fun p => if p.1 = id then (p.1, m) else p)

/-- Translation of `TaskQueue._update_message_job_status`: set `job_status` and clear
`queue_position`; no-op when the message is missing. -/
def updateMessageJobStatus (id : ℕ) (st : MessageJobStatus) (db : Db) : Db :=
  match db.lookup id with
  | none => db
  | some m => dbUpdate db id { m with job_status := st, queue_position := none }

/-- Translation of `TaskQueue._update_message_final_status`, translated clause by clause:
return if the message is missing; keep the current status while any
recipient is PENDING; with no processed recipient apply `default_status`
when given; otherwise COMPLETED / PARTIAL / FAILED from the counts. -/
def updateMessageFinalStatus (id : ℕ) (defaultStatus : Option MessageJobStatus)
    (db : Db) : Db :=
  match db.lookup id with
  | none => db
  | some m =>
      let success_count := m.recipients.countP
        (fun r => r.status == RecipientStatus.SENT)
      let failed_count := m.recipients.countP
        (fun r => r.status == RecipientStatus.FAILED)
      let pending_count := m.recipients.countP
        (fun r => r.status == RecipientStatus.PENDING)
      if 0 < pending_count then db
      else
        let total := success_count + failed_count
        if total = 0 then
          match defaultStatus with
          | some st => dbUpdate db id { m with job_status := st }
          | none => db
        else if success_count = total then
          dbUpdate db id { m with job_status := MessageJobStatus.COMPLETED }
        else if 0 < success_count then
          dbUpdate db id { m with job_status := MessageJobStatus.PARTIAL }
        else
          dbUpdate db id { m with job_status := MessageJobStatus.FAILED }

/-! ## Dead letter queue (services/dead_letter.py, models.py) -/

/-- The status strings `"pending" | "retried" | "abandoned"`. -/
inductive DLStatus where
  | pending
  | retried
  | abandoned
deriving DecidableEq, Repr

/-- Model of `models.py::DeadLetterMessage` (timestamps as rational clock readings). -/
structure DeadLetterMessage where
  message_id : Option ℕ
  recipient : String
  content : String
  error_message : String
  error_type : String
  retry_count : ℕ
  max_retries : ℕ
  status : DLStatus
  created_at : ℚ
  retried_at : Option ℚ
  last_attempt_at : Option ℚ
deriving DecidableEq, Repr

namespace DeadLetterMessage

/-- Translation of `DeadLetterMessage.can_retry`:
`retry_count < max_retries and status == "pending"`. -/
def can_retry (r : DeadLetterMessage) : Bool :=
  decide (r.retry_count < r.max_retries) && decide (r.status = DLStatus.pending)

/-- Translation of `DeadLetterMessage.increment_retry` at clock reading `now`: bump the
counter and stamp `last_attempt_at`. -/
def increment_retry (now : ℚ) (r : DeadLetterMessage) : DeadLetterMessage :=
  { r with retry_count := r.retry_count + 1, last_attempt_at := some now }

end DeadLetterMessage

/-- The dead-letter table keyed by id. -/
abbrev DLStore := List (ℕ × DeadLetterMessage)

/-- Replace the record with key `id`. -/
def dlStoreUpdate (store : DLStore) (id : ℕ) (r : DeadLetterMessage) : DLStore :=
  store.map (fun p => if p.1 = id then (p.1, r) else p)

/-- Translation of `DeadLetterQueue.retry(dead_letter_id)`: `false` when the record is
missing or `can_retry` fails; otherwise `increment_retry` plus commit and
`true`. -/
def DeadLetterQueue.retry (store : DLStore) (id : ℕ) (now : ℚ) :
    Bool × DLStore :=
  match store.lookup id with
  | none => (false, store)
  | some r =>
      if r.can_retry then (true, dlStoreUpdate store id (r.increment_retry now))
      else (false, store)

/-- Translation of `DeadLetterQueue.add` (with the service's default `max_retries = 3`, as
used by the worker through `get_dead_letter_queue()`): a fresh PENDING
record with `retry_count = 0`. -/
def mkDeadLetter (mid : Option ℕ) (recipient content errMsg errTy : String)
    (now : ℚ) : DeadLetterMessage :=
  { message_id := mid, recipient := recipient, content := content,
    error_message := errMsg, error_type := errTy,
    retry_count := 0, max_retries := 3, status := DLStatus.pending,
    created_at := now, retried_at := none, last_attempt_at := none }

/-! ## Worker loop (services/queue.py::_worker_loop, lines 73-122)

The per-item processing step is embedded with an explicit error slot: a
Python statement is a function `WorkerState → WorkerState × Option PyExc`,
and `try`/`except`/`finally` become combinators on such functions, so that
"an exception escapes the step" is visible as a `some` in the result. -/

/-- A Python exception value: message and type name. -/
structure PyExc where
  msg : String
  ty : String
deriving DecidableEq, Repr

/-- A dequeued task item: the function's `__name__`, its first positional
argument when that is an int (`args[0]`; `none` folds together "no args"
and "args[0] not an int"), the `str(...)` renderings used by the
dead-letter capture, and the task body's behaviour as a function of the
message table — returning the mutated table and, when the body raises, the
exception. -/
structure TaskItem where
  funcName : String
  firstArgInt : Option ℕ
  argsRepr : String
  kwargsRepr : String
  run : Db → Db × Option PyExc

/-- The task names in `SMS_TASK_NAMES`. -/
def SMS_TASK_NAMES : List String :=
  ["process_single_sms_task", "process_bulk_sms_task"]

/-- Translation of `is_sms_task`: the function name is an SMS task name and `args[0]` is
an int. -/
def isSmsTask (t : TaskItem) : Bool :=
  SMS_TASK_NAMES.contains t.funcName && t.firstArgInt.isSome

/-- Observable worker events. -/
inductive WEvent where
  | rateAcquire (ok : Bool)
  | taskInvoked
  | dlqAddCalled
  | taskDoneCalled
deriving DecidableEq, Repr

/-- Worker-visible state: message table, dead-letter table, `task_done`
count and the trace of observable events. -/
structure WorkerState where
  db : Db
  deadLetters : List DeadLetterMessage
  taskDoneCount : ℕ
  events : List WEvent
deriving DecidableEq, Repr

/-- A Python statement: mutates the state and possibly raises. -/
abbrev PyStep := WorkerState → WorkerState × Option PyExc

/-- Sequencing: the second statement runs only when the first one did not
raise. -/
def pySeq (a b : PyStep) : PyStep := fun s =>
  match a s with
  | (s1, none) => b s1
  | (s1, some e) => (s1, some e)

/-- Combinator for `try`/`except`: the handler receives the exception together with the
state as mutated so far. -/
def pyTry (body : PyStep) (handler : PyExc → PyStep) : PyStep := fun s =>
  match body s with
  | (s1, none) => (s1, none)
  | (s1, some e) => handler e s1

/-- Combinator for `try`/`finally`: the final statement always runs; an exception raised
there replaces any pending one. -/
def pyFinallyStep (body fin : PyStep) : PyStep := fun s =>
  let r := body s
  match fin r.1 with
  | (s2, none) => (s2, r.2)
  | (s2, some e2) => (s2, some e2)

/-- A statement that cannot raise. -/
def pureStep (f : WorkerState → WorkerState) : PyStep := fun s => (f s, none)

/-- Append an observable event. -/
def addEvent (ev : WEvent) (s : WorkerState) : WorkerState :=
  { s with events := s.events ++ [ev] }

/-- Step for `self.rate_limiter.acquire()` — the returned boolean (`rateResult`) is
discarded by the worker; the call itself cannot raise. -/
def acquireStep (rateResult : Bool) : PyStep :=
  pureStep (addEvent (WEvent.rateAcquire rateResult))

/-- Step for `if is_sms_task: self._update_message_job_status(message_id, SENDING)`. -/
def sendingStep (isSms : Bool) (mid : ℕ) : PyStep :=
  pureStep (fun s =>
    if isSms then
      { s with db := updateMessageJobStatus mid MessageJobStatus.SENDING s.db }
    else s)

/-- Step for `task_func(*args, **kwargs)`. -/
def taskStep (t : TaskItem) : PyStep := fun s =>
  let r := t.run s.db
  ({ s with db := r.1, events := s.events ++ [WEvent.taskInvoked] }, r.2)

/-- Step for `if is_sms_task: self._update_message_final_status(message_id)` on the
success path. -/
def finalOkStep (isSms : Bool) (mid : ℕ) : PyStep :=
  pureStep (fun s =>
    if isSms then
      { s with db := updateMessageFinalStatus mid none s.db }
    else s)

/-- The failure path's
`try: self._update_message_final_status(message_id, FAILED) except: pass`
(guarded by `if is_sms_task`; the model's update is pure, the `except:
pass` is kept for structural fidelity). -/
def markFailedStep (isSms : Bool) (mid : ℕ) : PyStep :=
  pyTry
    (pureStep (fun s =>
      if isSms then
        { s with db :=
            updateMessageFinalStatus mid (some MessageJobStatus.FAILED) s.db }
      else s))
    (fun _ => pureStep id)

/-- Step for `try: dlq.add(...) except Exception as dlq_error: logger.error(...)`:
when the store accepts the write (`dlqOk`) the fresh record is appended;
otherwise the raised error is logged and swallowed, leaving the table
unchanged. -/
def dlqCaptureStep (mid : Option ℕ) (t : TaskItem) (e : PyExc) (dlqOk : Bool)
    (now : ℚ) : PyStep :=
  pyTry
    (fun s =>
      let s1 := addEvent WEvent.dlqAddCalled s
      if dlqOk then
        ({ s1 with deadLetters := s1.deadLetters
            ++ [mkDeadLetter mid t.argsRepr t.kwargsRepr e.msg e.ty now] },
          none)
      else (s1, some { msg := "dead letter write failed", ty := "OperationalError" }))
    (fun _ => pureStep id)

/-- Step for `finally: self.queue.task_done()`. -/
def taskDoneStep : PyStep :=
  pureStep (fun s =>
    { s with taskDoneCount := s.taskDoneCount + 1,
             events := s.events ++ [WEvent.taskDoneCalled] })

/-- One worker iteration's per-item processing after a successful dequeue
of `t` (queue.py lines 76-118): the inner `try` acquires a rate token
(result discarded), marks SENDING, runs the task and finalizes; the
`except` clause marks FAILED (best effort) and captures to the dead-letter
queue (best effort); the `finally` marks the queue item done. -/
def processItem (t : TaskItem) (rateResult dlqOk : Bool) (now : ℚ) : PyStep :=
  let isSms := isSmsTask t
  let mid := t.firstArgInt.getD 0
  pyFinallyStep
    (pyTry
      (pySeq (acquireStep rateResult)
        (pySeq (sendingStep isSms mid)
          (pySeq (taskStep t) (finalOkStep isSms mid))))
      (fun e =>
        pySeq (markFailedStep isSms mid)
          (dlqCaptureStep (if isSms then t.firstArgInt else none) t e dlqOk now)))
    taskDoneStep

/-- The events one per-item step appends, as a function of whether the task
body raised and of the discarded rate-acquisition result. -/
def itemTrace (raised rateResult : Bool) : List WEvent :=
  [WEvent.rateAcquire rateResult, WEvent.taskInvoked]
    ++ (if raised then [WEvent.dlqAddCalled] else [])
    ++ [WEvent.taskDoneCalled]

/-- The finalization rule in the spec's words (section 4.4): `successCount
== total → COMPLETED`, `0 < successCount < total → PARTIAL`, `successCount
== 0 → FAILED`, with `total` the number of recipient outcomes. -/
def expectedFinalStatus (l : List Recipient) : MessageJobStatus :=
  if l.countP (fun r => r.status == RecipientStatus.SENT) = l.length then
    MessageJobStatus.COMPLETED
  else if 0 < l.countP (fun r => r.status == RecipientStatus.SENT) then
    MessageJobStatus.PARTIAL
  else MessageJobStatus.FAILED

theorem addTokens_tokens (s : RateLimiter) (now : ℚ) :
    (s.addTokens now).tokens = refillSpec s now := by
  simp only [RateLimiter.addTokens, refillSpec, sub_pos]
  split <;> rfl

theorem addTokens_rate (s : RateLimiter) (now : ℚ) :
    (s.addTokens now).rate_per_sec = s.rate_per_sec := by
  simp only [RateLimiter.addTokens]
  split <;> rfl

theorem addTokens_burst (s : RateLimiter) (now : ℚ) :
    (s.addTokens now).burst_capacity = s.burst_capacity := by
  simp only [RateLimiter.addTokens]
  split <;> rfl

theorem addTokens_inv (s : RateLimiter) (now : ℚ)
    (hr : 0 ≤ s.rate_per_sec) (h : s.Inv) : (s.addTokens now).Inv := by
  obtain ⟨h0, h1⟩ := h
  constructor
  · rw [addTokens_tokens, refillSpec]
    split
    · rename_i helapsed
      have hb : (0:ℚ) ≤ s.burst_capacity := le_trans h0 h1
      have hm : 0 ≤ (now - s.last_update) * s.rate_per_sec :=
        mul_nonneg (by linarith) hr
      exact le_min hb (by linarith)
    · exact h0
  · rw [addTokens_tokens, addTokens_burst, refillSpec]
    split
    · exact min_le_left _ _
    · exact h1

theorem tryAcquire_inv (s : RateLimiter) (now : ℚ)
    (hr : 0 ≤ s.rate_per_sec) (h : s.Inv) : ((s.tryAcquire now).2).Inv := by
  have hA := addTokens_inv s now hr h
  obtain ⟨h0, h1⟩ := hA
  simp only [RateLimiter.tryAcquire]
  split
  · rename_i hge
    refine ⟨?_, ?_⟩
    · show (0:ℚ) ≤ (RateLimiter.addTokens now s).tokens - 1
      linarith
    · show (RateLimiter.addTokens now s).tokens - 1 ≤
        (RateLimiter.addTokens now s).burst_capacity
      linarith
  · exact ⟨h0, h1⟩

theorem tryAcquire_rate (s : RateLimiter) (now : ℚ) :
    ((s.tryAcquire now).2).rate_per_sec = s.rate_per_sec := by
  simp only [RateLimiter.tryAcquire]
  split
  · simpa using addTokens_rate s now
  · exact addTokens_rate s now

theorem acquireSteps_inv (times : List ℚ) (s : RateLimiter)
    (hr : 0 ≤ s.rate_per_sec) (h : s.Inv) :
    ((RateLimiter.acquireSteps times s).2).Inv := by
  induction times generalizing s with
  | nil => exact h
  | cons now rest ih =>
      simp only [RateLimiter.acquireSteps]
      split
      · exact tryAcquire_inv s now hr h
      · exact ih _ (by rw [tryAcquire_rate]; exact hr) (tryAcquire_inv s now hr h)

theorem acquireSteps_rate (times : List ℚ) (s : RateLimiter) :
    ((RateLimiter.acquireSteps times s).2).rate_per_sec = s.rate_per_sec := by
  induction times generalizing s with
  | nil => rfl
  | cons now rest ih =>
      simp only [RateLimiter.acquireSteps]
      split
      · exact tryAcquire_rate s now
      · rw [ih, tryAcquire_rate]

theorem rlop_apply_inv (op : RLOp) (s : RateLimiter)
    (hr : 0 ≤ s.rate_per_sec) (h : s.Inv) : (op.apply s).Inv := by
  cases op with
  | tryAcq now => exact tryAcquire_inv s now hr h
  | acq times => exact acquireSteps_inv times s hr h
  | getTok now => exact addTokens_inv s now hr h

theorem rlop_apply_rate (op : RLOp) (s : RateLimiter) :
    (op.apply s).rate_per_sec = s.rate_per_sec := by
  cases op with
  | tryAcq now => exact tryAcquire_rate s now
  | acq times => exact acquireSteps_rate times s
  | getTok now => exact addTokens_rate s now

theorem tryAcquire_tokens_delta (s : RateLimiter) (now : ℚ) :
    ((s.tryAcquire now).2).tokens
      = refillSpec s now - (if (s.tryAcquire now).1 then 1 else 0) := by
  rw [← addTokens_tokens]
  by_cases h1 : 1 ≤ (s.addTokens now).tokens
  · simp [RateLimiter.tryAcquire, h1]
  · simp [RateLimiter.tryAcquire, h1]

theorem tryAcquire_success_iff (s : RateLimiter) (now : ℚ) :
    (s.tryAcquire now).1 = true ↔ 1 ≤ refillSpec s now := by
  rw [← addTokens_tokens]
  by_cases h1 : 1 ≤ (s.addTokens now).tokens
  · simp [RateLimiter.tryAcquire, h1]
  · simp [RateLimiter.tryAcquire, h1]

theorem getTokens_eq_refillSpec (s : RateLimiter) (now : ℚ) :
    (s.getTokens now).1 = refillSpec s now ∧
      ((s.getTokens now).2).tokens = refillSpec s now :=
  ⟨addTokens_tokens s now, addTokens_tokens s now⟩

theorem rlop_applyAll_inv (ops : List RLOp) (s : RateLimiter)
    (hr : 0 ≤ s.rate_per_sec) (h : s.Inv) : (RLOp.applyAll ops s).Inv := by
  induction ops generalizing s with
  | nil => exact h
  | cons op rest ih =>
      simp only [RLOp.applyAll, List.foldl_cons] at *
      exact ih _ (by rw [rlop_apply_rate]; exact hr) (rlop_apply_inv op s hr h)

/-- C5: over every sequence of `try_acquire`, `acquire` and `get_tokens`
calls, at arbitrary clock readings, `0 ≤ currentTokens ≤ capacity` holds at
every observation point (every prefix of the op sequence is itself an op
sequence); moreover each call first refills by `elapsed * rate_per_sec`
capped at capacity, and then decreases the count by exactly `1` exactly when
the acquisition succeeds (`get_tokens` never decreases it). -/
theorem rateLimiter_invariant_and_deltas (s : RateLimiter)
    (hr : 0 ≤ s.rate_per_sec) (h : s.Inv) :
    (∀ ops : List RLOp, (RLOp.applyAll ops s).Inv) ∧
    (∀ now : ℚ,
      ((s.tryAcquire now).2).tokens
          = refillSpec s now - (if (s.tryAcquire now).1 then 1 else 0) ∧
      ((s.tryAcquire now).1 = true ↔ 1 ≤ refillSpec s now) ∧
      (s.getTokens now).1 = refillSpec s now ∧
      ((s.getTokens now).2).tokens = refillSpec s now) := by
  refine ⟨fun ops => rlop_applyAll_inv ops s hr h, fun now => ?_⟩
  exact ⟨tryAcquire_tokens_delta s now, tryAcquire_success_iff s now,
    (getTokens_eq_refillSpec s now).1, (getTokens_eq_refillSpec s now).2⟩

theorem rateLimiter_invariant_and_deltas_witness :
    (RLOp.applyAll [RLOp.tryAcq 1, RLOp.acq [2, 3], RLOp.getTok 4]
      { rate_per_sec := 2, burst_capacity := 4, tokens := 4, last_update := 0 }).Inv :=
  (rateLimiter_invariant_and_deltas
      { rate_per_sec := 2, burst_capacity := 4, tokens := 4, last_update := 0 }
      (by norm_num) (by constructor <;> norm_num)).1 _

theorem addTokens_self (s : RateLimiter) (now : ℚ) (h : s.last_update = now) :
    s.addTokens now = s := by
  simp [RateLimiter.addTokens, h]

theorem addTokens_pos (s : RateLimiter) (now : ℚ) (h : s.last_update < now) :
    s.addTokens now
      = { s with
          tokens := min s.burst_capacity
            (s.tokens + (now - s.last_update) * s.rate_per_sec),
          last_update := now } := by
  simp [RateLimiter.addTokens, sub_pos, h]

theorem tryAcquire_pos (s : RateLimiter) (now : ℚ)
    (h : 1 ≤ (s.addTokens now).tokens) :
    s.tryAcquire now
      = (true, { s.addTokens now with tokens := (s.addTokens now).tokens - 1 }) := by
  simp [RateLimiter.tryAcquire, h]

theorem tryAcquire_neg (s : RateLimiter) (now : ℚ)
    (h : ¬ 1 ≤ (s.addTokens now).tokens) :
    s.tryAcquire now = (false, s.addTokens now) := by
  simp [RateLimiter.tryAcquire, h]

theorem tryAcquireRun_drain (c : ℕ) (now : ℚ) (s : RateLimiter)
    (hlast : s.last_update = now) (htok : s.tokens = (c : ℚ)) :
    tryAcquireRun (c+1) now s
      = (List.replicate c true ++ [false], { s with tokens := 0 }) := by
  induction c generalizing s with
  | zero =>
      have h0 : ¬ (1:ℚ) ≤ s.tokens := by rw [htok]; norm_num
      simp [tryAcquireRun, RateLimiter.tryAcquire, addTokens_self s now hlast, h0]
      cases s
      simp_all
  | succ c ih =>
      have h1 : (1:ℚ) ≤ s.tokens := by
        rw [htok]; push_cast; linarith [Nat.cast_nonneg (α := ℚ) c]
      have step : RateLimiter.tryAcquire now s = (true, { s with tokens := s.tokens - 1 }) := by
        simp [RateLimiter.tryAcquire, addTokens_self s now hlast, h1]
      have htok' : ({ s with tokens := s.tokens - 1 } : RateLimiter).tokens = (c : ℚ) := by
        show s.tokens - 1 = (c : ℚ)
        rw [htok]; push_cast; ring
      have hrec := ih { s with tokens := s.tokens - 1 } hlast htok'
      have hunfold : tryAcquireRun (c+1+1) now s
          = ((RateLimiter.tryAcquire now s).1
              :: (tryAcquireRun (c+1) now (RateLimiter.tryAcquire now s).2).1,
             (tryAcquireRun (c+1) now (RateLimiter.tryAcquire now s).2).2) := rfl
      rw [hunfold, step, hrec]
      simp [List.replicate_succ]

/-- C6: from a full bucket of integer capacity `C` (≥ 1) and rate `R > 0`,
with no time elapsing, exactly the first `C` `try_acquire` calls return
`true` and the `(C+1)`-th returns `false`; after `1/R` further seconds one
more call returns `true` and the next one returns `false`. -/
theorem rateLimiter_burst_exact (C : ℕ) (R now : ℚ) (hC : 1 ≤ C) (hR : 0 < R) :
    (tryAcquireRun (C+1) now ⟨R, (C:ℚ), (C:ℚ), now⟩).1
        = List.replicate C true ++ [false] ∧
    (RateLimiter.tryAcquire (now + 1/R)
        (tryAcquireRun (C+1) now ⟨R, (C:ℚ), (C:ℚ), now⟩).2).1 = true ∧
    (RateLimiter.tryAcquire (now + 1/R)
        (RateLimiter.tryAcquire (now + 1/R)
          (tryAcquireRun (C+1) now ⟨R, (C:ℚ), (C:ℚ), now⟩).2).2).1 = false := by
  have hdrain := tryAcquireRun_drain C now ⟨R, (C:ℚ), (C:ℚ), now⟩ rfl rfl
  have hRpos : 0 < 1/R := by positivity
  have hCcast : (1:ℚ) ≤ (C:ℚ) := by exact_mod_cast hC
  have hadd : RateLimiter.addTokens (now + 1/R) ⟨R, (C:ℚ), 0, now⟩
      = ⟨R, (C:ℚ), 1, now + 1/R⟩ := by
    rw [addTokens_pos _ _ (by show now < now + 1/R; linarith)]
    dsimp only
    have hv : (0:ℚ) + (now + 1/R - now) * R = 1 := by field_simp; ring
    rw [hv, min_eq_right hCcast]
  have e1 : RateLimiter.tryAcquire (now + 1/R) ⟨R, (C:ℚ), 0, now⟩
      = (true, ⟨R, (C:ℚ), 0, now + 1/R⟩) := by
    rw [tryAcquire_pos _ _ (by rw [hadd]), hadd]
    norm_num
  have hself : RateLimiter.addTokens (now + 1/R) ⟨R, (C:ℚ), 0, now + 1/R⟩
      = ⟨R, (C:ℚ), 0, now + 1/R⟩ :=
    addTokens_self _ _ rfl
  have e2 : RateLimiter.tryAcquire (now + 1/R) ⟨R, (C:ℚ), 0, now + 1/R⟩
      = (false, ⟨R, (C:ℚ), 0, now + 1/R⟩) := by
    rw [tryAcquire_neg _ _ (by rw [hself]; norm_num), hself]
  have hsnd := congrArg Prod.snd hdrain
  refine ⟨congrArg Prod.fst hdrain, ?_, ?_⟩
  · rw [hsnd]
    show (RateLimiter.tryAcquire (now + 1/R) ⟨R, (C:ℚ), 0, now⟩).1 = true
    rw [e1]
  · rw [hsnd]
    show (RateLimiter.tryAcquire (now + 1/R)
        (RateLimiter.tryAcquire (now + 1/R) ⟨R, (C:ℚ), 0, now⟩).2).1 = false
    rw [e1]
    show (RateLimiter.tryAcquire (now + 1/R) ⟨R, (C:ℚ), 0, now + 1/R⟩).1 = false
    rw [e2]

theorem rateLimiter_burst_exact_witness :
    (tryAcquireRun (4+1) 0 ⟨2, ((4:ℕ):ℚ), ((4:ℕ):ℚ), 0⟩).1
        = List.replicate 4 true ++ [false] ∧
    (RateLimiter.tryAcquire (0 + 1/2)
        (tryAcquireRun (4+1) 0 ⟨2, ((4:ℕ):ℚ), ((4:ℕ):ℚ), 0⟩).2).1 = true ∧
    (RateLimiter.tryAcquire (0 + 1/2)
        (RateLimiter.tryAcquire (0 + 1/2)
          (tryAcquireRun (4+1) 0 ⟨2, ((4:ℕ):ℚ), ((4:ℕ):ℚ), 0⟩).2).2).1 = false :=
  rateLimiter_burst_exact 4 2 0 (by norm_num) (by norm_num)

/-- C9: the rate limiter built from the application's default configuration
(`SMS_RATE_PER_SEC = 2.0`, `SMS_BURST_CAPACITY = 4`) has refill rate `2`
tokens per second and capacity (= initial token count) `4`. -/
theorem rateLimiter_default_config (now : ℚ) :
    (initRateLimiterAppDefault now).rate_per_sec = 2 ∧
    (initRateLimiterAppDefault now).burst_capacity = 4 ∧
    (initRateLimiterAppDefault now).tokens = 4 :=
  ⟨rfl, rfl, rfl⟩

theorem qle_trans {a b c : QEntry} (h1 : qle a b) (h2 : qle b c) : qle a c := by
  unfold qle at *; omega

theorem minEntry_mem (a : QEntry) (l : List QEntry) : minEntry a l ∈ a :: l := by
  induction l generalizing a with
  | nil => simp [minEntry]
  | cons b t ih =>
      have hstep : minEntry a (b :: t) = minEntry (if qlt b a then b else a) t := rfl
      rw [hstep]
      rcases List.mem_cons.1 (ih (if qlt b a then b else a)) with h | h
      · rw [h]
        by_cases hba : qlt b a
        · simp [hba]
        · simp [hba]
      · exact List.mem_cons_of_mem _ (List.mem_cons_of_mem _ h)

theorem minEntry_le (a : QEntry) (l : List QEntry) :
    ∀ x ∈ a :: l, qle (minEntry a l) x := by
  induction l generalizing a with
  | nil =>
      intro x hx
      simp at hx
      subst hx
      unfold minEntry qle
      simp
  | cons b t ih =>
      intro x hx
      have hstep : minEntry a (b :: t) = minEntry (if qlt b a then b else a) t := rfl
      have hmina : qle (if qlt b a then b else a) a := by
        by_cases hba : qlt b a <;> simp [hba] <;> unfold qlt qle at * <;> omega
      have hminb : qle (if qlt b a then b else a) b := by
        by_cases hba : qlt b a <;> simp [hba] <;> unfold qlt qle at * <;> omega
      have hacc : qle (minEntry (if qlt b a then b else a) t)
          (if qlt b a then b else a) :=
        ih _ _ (List.mem_cons_self _ _)
      rcases List.mem_cons.1 hx with h | h
      · subst h
        rw [hstep]
        exact qle_trans hacc hmina
      · rcases List.mem_cons.1 h with h' | h'
        · subst h'
          rw [hstep]
          exact qle_trans hacc hminb
        · rw [hstep]
          exact ih _ _ (List.mem_cons.2 (Or.inr h'))

theorem eraseFirst_perm {l : List QEntry} {e : QEntry} (h : e ∈ l) :
    List.Perm l (e :: eraseFirst l e) := by
  induction l with
  | nil => cases h
  | cons x xs ih =>
      by_cases hx : x = e
      · subst hx
        simp [eraseFirst]
      · have hmem : e ∈ xs := by
          rcases List.mem_cons.1 h with h' | h'
          · exact absurd h'.symm hx
          · exact h'
        simp only [eraseFirst, if_neg hx]
        exact ((ih hmem).cons x).trans (List.Perm.swap e x _)

theorem eraseFirst_length {l : List QEntry} {e : QEntry} (h : e ∈ l) :
    (eraseFirst l e).length + 1 = l.length := by
  induction l with
  | nil => cases h
  | cons x xs ih =>
      by_cases hx : x = e
      · simp [eraseFirst, hx]
      · have hmem : e ∈ xs := by
          rcases List.mem_cons.1 h with h' | h'
          · exact absurd h'.symm hx
          · exact h'
        simp only [eraseFirst, if_neg hx, List.length_cons]
        rw [← ih hmem]

theorem eraseFirst_subset (l : List QEntry) (e : QEntry) :
    ∀ x ∈ eraseFirst l e, x ∈ l := by
  induction l with
  | nil => intro x hx; cases hx
  | cons y ys ih =>
      intro x hx
      by_cases hy : y = e
      · simp only [eraseFirst, if_pos hy] at hx
        exact List.mem_cons_of_mem _ hx
      · simp only [eraseFirst, if_neg hy] at hx
        rcases List.mem_cons.1 hx with h' | h'
        · exact h' ▸ List.mem_cons_self _ _
        · exact List.mem_cons_of_mem _ (ih x h')

theorem drainAux_perm_sorted (fuel : ℕ) (l : List QEntry)
    (h : l.length ≤ fuel) :
    List.Perm (drainAux fuel l) l ∧ List.Sorted qle (drainAux fuel l) := by
  induction fuel generalizing l with
  | zero =>
      have hl : l = [] := List.eq_nil_of_length_eq_zero (Nat.le_zero.1 h)
      subst hl
      exact ⟨List.Perm.refl _, List.sorted_nil⟩
  | succ fuel ih =>
      cases l with
      | nil => exact ⟨List.Perm.refl _, List.sorted_nil⟩
      | cons a t =>
          have hm : minEntry a t ∈ a :: t := minEntry_mem a t
          have hperm : List.Perm (a :: t) (minEntry a t :: eraseFirst (a :: t) (minEntry a t)) :=
            eraseFirst_perm hm
          have hlen : (eraseFirst (a :: t) (minEntry a t)).length ≤ fuel := by
            have := eraseFirst_length hm
            simp only [List.length_cons] at h this
            omega
          obtain ⟨ihp, ihs⟩ := ih (eraseFirst (a :: t) (minEntry a t)) hlen
          have hstep : drainAux (fuel + 1) (a :: t)
              = minEntry a t :: drainAux fuel (eraseFirst (a :: t) (minEntry a t)) := rfl
          constructor
          · rw [hstep]
            exact (ihp.cons (minEntry a t)).trans hperm.symm
          · rw [hstep]
            refine List.sorted_cons.2 ⟨?_, ihs⟩
            intro x hx
            have hx' : x ∈ eraseFirst (a :: t) (minEntry a t) := ihp.mem_iff.1 hx
            exact minEntry_le a t x (eraseFirst_subset _ _ x hx')

theorem enqueueAll_bounded (es : List QEntry) (q : TaskQueue)
    (hpos : 0 < q.maxsize) (h : q.items.length ≤ q.maxsize) :
    (q.enqueueAll es).items.length ≤ q.maxsize ∧
      (q.enqueueAll es).maxsize = q.maxsize := by
  induction es generalizing q with
  | nil => exact ⟨h, rfl⟩
  | cons e rest ih =>
      have hstep1 : ((q.enqueue e).2).maxsize = q.maxsize := by
        unfold TaskQueue.enqueue; split <;> rfl
      have hstep2 : ((q.enqueue e).2).items.length ≤ q.maxsize := by
        unfold TaskQueue.enqueue
        split
        · exact h
        · rename_i hfull
          push_neg at hfull
          have := hfull hpos
          simp only [List.length_append, List.length_cons, List.length_nil]
          omega
      obtain ⟨ha, hb⟩ := ih (q.enqueue e).2 (by rw [hstep1]; exact hpos)
        (by rw [hstep1]; exact hstep2)
      rw [hstep1] at ha hb
      simp only [TaskQueue.enqueueAll, List.foldl_cons] at *
      exact ⟨ha, hb⟩

/-- C4: `enqueue` is non-blocking and total — while the queue holds fewer
than `max_queue_size` items it returns `true` and appends the item; at
capacity it returns `false` and leaves the queue unchanged; over any
sequence of `enqueue` calls the size never exceeds `max_queue_size`. -/
theorem taskQueue_enqueue_total_bounded (q : TaskQueue) (e : QEntry)
    (hpos : 0 < q.maxsize) :
    (q.items.length < q.maxsize →
        q.enqueue e = (true, { q with items := q.items ++ [e] })) ∧
    (q.maxsize ≤ q.items.length → q.enqueue e = (false, q)) ∧
    (∀ es : List QEntry, q.items.length ≤ q.maxsize →
        (q.enqueueAll es).items.length ≤ q.maxsize) := by
  refine ⟨?_, ?_, ?_⟩
  · intro hlt
    unfold TaskQueue.enqueue
    rw [if_neg]
    push_neg
    intro _
    omega
  · intro hge
    unfold TaskQueue.enqueue
    rw [if_pos ⟨hpos, hge⟩]
  · intro es h
    exact (enqueueAll_bounded es q hpos h).1

theorem taskQueue_enqueue_total_bounded_witness :
    (({ maxsize := 2, items := [] } : TaskQueue).enqueueAll
        [(1, 1), (1, 2), (1, 3)]).items.length ≤ 2 :=
  (taskQueue_enqueue_total_bounded { maxsize := 2, items := [] } (1, 1)
      (by decide)).2.2 [(1, 1), (1, 2), (1, 3)] (by decide)

/-- C1 counterexample: two jobs with equal priority `1`, first submission
carrying payload key `5`, second submission carrying payload key `3`.  Both
enqueues succeed and the first dequeue returns the *second*-submitted entry
`(1, 3)` — submission (FIFO) order is not preserved among equal priorities,
because entries are compared as whole tuples and no insertion-sequence
counter exists. -/
theorem taskQueue_fifo_counterexample :
    ((({ maxsize := 1000, items := [] } : TaskQueue).enqueue (1, 5)).1 = true) ∧
    (((({ maxsize := 1000, items := [] } : TaskQueue).enqueue (1, 5)).2.enqueue
        (1, 3)).1 = true) ∧
    ((((({ maxsize := 1000, items := [] } : TaskQueue).enqueue (1, 5)).2.enqueue
        (1, 3)).2.get).map Prod.fst = some (1, 3)) ∧
    ((((({ maxsize := 1000, items := [] } : TaskQueue).enqueue (1, 5)).2.enqueue
        (1, 3)).2.get).map Prod.fst ≠ some (1, 5)) := by
  decide

/-- C1 (amended): repeatedly dequeuing yields all queued entries in
ascending lexicographic `(priority, payload key)` order — the entry with the
lower numeric priority value dequeues first, and among equal priorities the
order follows the payload comparison key, not submission order. -/
theorem taskQueue_dequeue_sorted (l : List QEntry) :
    List.Perm (drain l) l ∧ List.Sorted qle (drain l) :=
  drainAux_perm_sorted l.length l (le_refl _)

theorem processItem_eq (t : TaskItem) (r dlqOk : Bool) (now : ℚ)
    (s : WorkerState) :
    processItem t r dlqOk now s
      = (match (t.run (if isSmsTask t
            then updateMessageJobStatus (t.firstArgInt.getD 0)
              MessageJobStatus.SENDING s.db
            else s.db)) with
         | (db2, none) =>
            ({ db := if isSmsTask t
                 then updateMessageFinalStatus (t.firstArgInt.getD 0) none db2
                 else db2,
               deadLetters := s.deadLetters,
               taskDoneCount := s.taskDoneCount + 1,
               events := s.events ++ itemTrace false r }, none)
         | (db2, some e) =>
            ({ db := if isSmsTask t
                 then updateMessageFinalStatus (t.firstArgInt.getD 0)
                   (some MessageJobStatus.FAILED) db2
                 else db2,
               deadLetters := if dlqOk then s.deadLetters
                   ++ [mkDeadLetter
                        (if isSmsTask t then t.firstArgInt else none)
                        t.argsRepr t.kwargsRepr e.msg e.ty now]
                 else s.deadLetters,
               taskDoneCount := s.taskDoneCount + 1,
               events := s.events ++ itemTrace true r }, none)) := by
  by_cases hsms : isSmsTask t
  · rcases hr : t.run (updateMessageJobStatus (t.firstArgInt.getD 0)
        MessageJobStatus.SENDING s.db) with ⟨db2, err⟩
    cases err with
    | none =>
        simp [processItem, pyFinallyStep, pyTry, pySeq, acquireStep,
          sendingStep, taskStep, finalOkStep, markFailedStep, dlqCaptureStep,
          taskDoneStep, pureStep, addEvent, hsms, hr, itemTrace]
    | some e =>
        cases dlqOk <;>
          simp [processItem, pyFinallyStep, pyTry, pySeq, acquireStep,
            sendingStep, taskStep, finalOkStep, markFailedStep, dlqCaptureStep,
            taskDoneStep, pureStep, addEvent, hsms, hr, itemTrace]
  · rcases hr : t.run s.db with ⟨db2, err⟩
    cases err with
    | none =>
        simp [processItem, pyFinallyStep, pyTry, pySeq, acquireStep,
          sendingStep, taskStep, finalOkStep, markFailedStep, dlqCaptureStep,
          taskDoneStep, pureStep, addEvent, hsms, hr, itemTrace]
    | some e =>
        cases dlqOk <;>
          simp [processItem, pyFinallyStep, pyTry, pySeq, acquireStep,
            sendingStep, taskStep, finalOkStep, markFailedStep, dlqCaptureStep,
            taskDoneStep, pureStep, addEvent, hsms, hr, itemTrace]

theorem lookup_cons_self {B : Type} (k : ℕ) (w : B) (rest : List (ℕ × B)) :
    List.lookup k ((k, w) :: rest) = some w := by
  simp [List.lookup]

theorem lookup_cons_ne {B : Type} (k j : ℕ) (w : B) (rest : List (ℕ × B))
    (h : j ≠ k) : List.lookup j ((k, w) :: rest) = List.lookup j rest := by
  have h2 : (j == k) = false := beq_eq_false_iff_ne.2 h
  simp [List.lookup, h2]

theorem dbUpdate_cons_eq (k : ℕ) (w v : Message) (rest : Db) :
    dbUpdate ((k, w) :: rest) k v = (k, v) :: dbUpdate rest k v := by
  simp [dbUpdate]

theorem dbUpdate_cons_ne (k id : ℕ) (w v : Message) (rest : Db)
    (h : k ≠ id) :
    dbUpdate ((k, w) :: rest) id v = (k, w) :: dbUpdate rest id v := by
  simp [dbUpdate, h]

theorem lookup_dbUpdate_self (db : Db) (id : ℕ) (m v : Message)
    (h : db.lookup id = some m) : (dbUpdate db id v).lookup id = some v := by
  induction db with
  | nil => simp [List.lookup] at h
  | cons p rest ih =>
      obtain ⟨k, w⟩ := p
      by_cases hk : k = id
      · subst hk
        rw [dbUpdate_cons_eq, lookup_cons_self]
      · rw [lookup_cons_ne k id w rest (Ne.symm hk)] at h
        rw [dbUpdate_cons_ne k id w v rest hk,
          lookup_cons_ne k id w (dbUpdate rest id v) (Ne.symm hk)]
        exact ih h

theorem lookup_dbUpdate_ne (db : Db) (id j : ℕ) (v : Message) (h : j ≠ id) :
    (dbUpdate db id v).lookup j = db.lookup j := by
  induction db with
  | nil => simp [dbUpdate]
  | cons p rest ih =>
      obtain ⟨k, w⟩ := p
      by_cases hk : k = id
      · subst hk
        rw [dbUpdate_cons_eq]
        by_cases hj : j = k
        · subst hj
          exact absurd rfl h
        · rw [lookup_cons_ne k j v (dbUpdate rest k v) hj,
            lookup_cons_ne k j w rest hj]
          exact ih
      · rw [dbUpdate_cons_ne k id w v rest hk]
        by_cases hj : j = k
        · subst hj
          rw [lookup_cons_self, lookup_cons_self]
        · rw [lookup_cons_ne k j w (dbUpdate rest id v) hj,
            lookup_cons_ne k j w rest hj]
          exact ih

theorem lookup_updateMessageJobStatus_self (id : ℕ) (st : MessageJobStatus)
    (db : Db) (m : Message) (h : db.lookup id = some m) :
    (updateMessageJobStatus id st db).lookup id
      = some { m with job_status := st, queue_position := none } := by
  unfold updateMessageJobStatus
  rw [h]
  exact lookup_dbUpdate_self db id m _ h

theorem recipient_count_split (l : List Recipient) :
    l.countP (fun r => r.status == RecipientStatus.SENT)
      + l.countP (fun r => r.status == RecipientStatus.FAILED)
      + l.countP (fun r => r.status == RecipientStatus.PENDING)
      = l.length := by
  induction l with
  | nil => simp
  | cons a t ih =>
      cases ha : a.status <;> simp [List.countP_cons, ha] <;> omega

theorem updateMessageFinalStatus_pending (id : ℕ)
    (d : Option MessageJobStatus) (db : Db) (m : Message)
    (hlook : db.lookup id = some m)
    (hpend : 0 < m.recipients.countP
      (fun r => r.status == RecipientStatus.PENDING)) :
    updateMessageFinalStatus id d db = db := by
  unfold updateMessageFinalStatus
  rw [hlook]
  simp [hpend]

/-- C3: once no recipient outcome remains PENDING (and the message has
recipient outcomes at all — with zero recipients the rule's cases
`successCount == total → COMPLETED` and `successCount == 0 → FAILED` would
collide and the code keeps the current status), finalization sets the job
status to COMPLETED when every recipient was SENT, PARTIAL when some but
not all were SENT, and FAILED when none was. -/
theorem jobStatus_finalization (db : Db) (id : ℕ) (m : Message)
    (d : Option MessageJobStatus)
    (hlook : db.lookup id = some m)
    (hpend : m.recipients.countP
      (fun r => r.status == RecipientStatus.PENDING) = 0)
    (hne : m.recipients ≠ []) :
    (updateMessageFinalStatus id d db).lookup id
      = some { m with job_status := expectedFinalStatus m.recipients } := by
  unfold expectedFinalStatus
  have hlen : m.recipients.length ≠ 0 := by
    intro h0
    exact hne (List.eq_nil_of_length_eq_zero h0)
  have htot : m.recipients.countP (fun r => r.status == RecipientStatus.SENT)
      + m.recipients.countP (fun r => r.status == RecipientStatus.FAILED)
      = m.recipients.length := by
    have := recipient_count_split m.recipients
    omega
  unfold updateMessageFinalStatus
  rw [hlook]
  dsimp only
  rw [hpend]
  simp only [lt_self_iff_false, if_false]
  rw [htot]
  rw [if_neg hlen]
  by_cases hc1 : m.recipients.countP
      (fun r => r.status == RecipientStatus.SENT) = m.recipients.length
  · simp only [if_pos hc1]
    exact lookup_dbUpdate_self db id m _ hlook
  · simp only [if_neg hc1]
    by_cases hc2 : 0 < m.recipients.countP
        (fun r => r.status == RecipientStatus.SENT)
    · simp only [if_pos hc2]
      exact lookup_dbUpdate_self db id m _ hlook
    · simp only [if_neg hc2]
      exact lookup_dbUpdate_self db id m _ hlook

theorem jobStatus_finalization_witness :
    (updateMessageFinalStatus 7 none
        [(7, { job_status := MessageJobStatus.SENDING, queue_position := none,
               recipients :=
                 [{ phone := "91234567", status := RecipientStatus.SENT },
                  { phone := "98765432", status := RecipientStatus.FAILED }] })]).lookup 7
      = some { job_status := MessageJobStatus.PARTIAL, queue_position := none,
               recipients :=
                 [{ phone := "91234567", status := RecipientStatus.SENT },
                  { phone := "98765432", status := RecipientStatus.FAILED }] } :=
  (jobStatus_finalization
    [(7, { job_status := MessageJobStatus.SENDING, queue_position := none,
           recipients :=
             [{ phone := "91234567", status := RecipientStatus.SENT },
              { phone := "98765432", status := RecipientStatus.FAILED }] })]
    7
    { job_status := MessageJobStatus.SENDING, queue_position := none,
      recipients :=
        [{ phone := "91234567", status := RecipientStatus.SENT },
         { phone := "98765432", status := RecipientStatus.FAILED }] }
    none rfl (by decide) (by decide)).trans (by decide)

/-- C2 counterexample: a tracked delivery job (message 1, one recipient
still PENDING) whose task body raises before recording any outcome.  After
the worker step the job status is SENDING, not FAILED —
`_update_message_final_status` returns early while any recipient is
PENDING, so the FAILED default is never applied — while the dead-letter
record is created with `retry_count = 0` and status PENDING. -/
theorem worker_exception_counterexample :
    (((processItem
        { funcName := "process_single_sms_task", firstArgInt := some 1,
          argsRepr := "(1, 91234567)", kwargsRepr := "",
          run := fun db => (db, some { msg := "boom", ty := "RuntimeError" }) }
        true true 0)
      { db := [(1, { job_status := MessageJobStatus.PENDING,
                     queue_position := some 0,
                     recipients :=
                       [{ phone := "91234567",
                          status := RecipientStatus.PENDING }] })],
        deadLetters := [], taskDoneCount := 0, events := [] }).1.db.lookup
        1).map Message.job_status = some MessageJobStatus.SENDING ∧
    (((processItem
        { funcName := "process_single_sms_task", firstArgInt := some 1,
          argsRepr := "(1, 91234567)", kwargsRepr := "",
          run := fun db => (db, some { msg := "boom", ty := "RuntimeError" }) }
        true true 0)
      { db := [(1, { job_status := MessageJobStatus.PENDING,
                     queue_position := some 0,
                     recipients :=
                       [{ phone := "91234567",
                          status := RecipientStatus.PENDING }] })],
        deadLetters := [], taskDoneCount := 0, events := [] }).1.db.lookup
        1).map Message.job_status ≠ some MessageJobStatus.FAILED ∧
    ((processItem
        { funcName := "process_single_sms_task", firstArgInt := some 1,
          argsRepr := "(1, 91234567)", kwargsRepr := "",
          run := fun db => (db, some { msg := "boom", ty := "RuntimeError" }) }
        true true 0)
      { db := [(1, { job_status := MessageJobStatus.PENDING,
                     queue_position := some 0,
                     recipients :=
                       [{ phone := "91234567",
                          status := RecipientStatus.PENDING }] })],
        deadLetters := [], taskDoneCount := 0,
        events := [] }).1.deadLetters.map
        (fun d => (d.retry_count, d.status)) = [(0, DLStatus.pending)] := by
  decide

/-- C2 (amended): for every tracked delivery job whose task body raises
before any recipient outcome is recorded (all outcomes still PENDING, at
least one recipient), the worker leaves the job status SENDING — the
FAILED default is applied only when the message has no recipient outcomes
at all — and, when the dead-letter write succeeds, exactly one
DeadLetterRecord is appended for the failure, with `retryCount = 0` and
status PENDING. -/
theorem worker_exception_sending_and_dead_letter (t : TaskItem) (mid : ℕ)
    (m : Message) (e : PyExc) (r : Bool) (now : ℚ) (s : WorkerState)
    (hsms : isSmsTask t = true)
    (hmid : t.firstArgInt = some mid)
    (hlook : s.db.lookup mid = some m)
    (hpend : ∀ rc ∈ m.recipients, rc.status = RecipientStatus.PENDING)
    (hne : m.recipients ≠ [])
    (hrun : ∀ db, t.run db = (db, some e)) :
    ((processItem t r true now s).1.db.lookup mid).map Message.job_status
        = some MessageJobStatus.SENDING ∧
    (processItem t r true now s).1.deadLetters
        = s.deadLetters
          ++ [mkDeadLetter (some mid) t.argsRepr t.kwargsRepr e.msg e.ty now] ∧
    (mkDeadLetter (some mid) t.argsRepr t.kwargsRepr e.msg e.ty
        now).retry_count = 0 ∧
    (mkDeadLetter (some mid) t.argsRepr t.kwargsRepr e.msg e.ty now).status
        = DLStatus.pending := by
  obtain ⟨rc, hrc⟩ := List.exists_mem_of_ne_nil _ hne
  have hpend1 : 0 < m.recipients.countP
      (fun x => x.status == RecipientStatus.PENDING) := by
    rw [List.countP_pos_iff]
    exact ⟨rc, hrc, by rw [hpend rc hrc]; rfl⟩
  have hlook1 := lookup_updateMessageJobStatus_self mid
    MessageJobStatus.SENDING s.db m hlook
  have hfinal : updateMessageFinalStatus mid (some MessageJobStatus.FAILED)
      (updateMessageJobStatus mid MessageJobStatus.SENDING s.db)
      = updateMessageJobStatus mid MessageJobStatus.SENDING s.db :=
    updateMessageFinalStatus_pending mid (some MessageJobStatus.FAILED) _ _
      hlook1 hpend1
  rw [processItem_eq]
  simp only [hsms, hmid, if_true, Option.getD_some, hrun]
  refine ⟨?_, by simp, rfl, rfl⟩
  rw [hfinal, hlook1]
  rfl

theorem worker_exception_sending_and_dead_letter_witness :
    (((processItem
        { funcName := "process_bulk_sms_task", firstArgInt := some 2,
          argsRepr := "(2, [91234567])", kwargsRepr := "",
          run := fun db => (db, some { msg := "db down", ty := "OperationalError" }) }
        false true 3)
      { db := [(2, { job_status := MessageJobStatus.SENDING,
                     queue_position := none,
                     recipients :=
                       [{ phone := "91234567",
                          status := RecipientStatus.PENDING }] })],
        deadLetters := [], taskDoneCount := 0,
        events := [] }).1.db.lookup 2).map
      Message.job_status = some MessageJobStatus.SENDING :=
  (worker_exception_sending_and_dead_letter
    { funcName := "process_bulk_sms_task", firstArgInt := some 2,
      argsRepr := "(2, [91234567])", kwargsRepr := "",
      run := fun db => (db, some { msg := "db down", ty := "OperationalError" }) }
    2
    { job_status := MessageJobStatus.SENDING, queue_position := none,
      recipients := [{ phone := "91234567", status := RecipientStatus.PENDING }] }
    { msg := "db down", ty := "OperationalError" }
    false 3
    { db := [(2, { job_status := MessageJobStatus.SENDING,
                   queue_position := none,
                   recipients :=
                     [{ phone := "91234567",
                        status := RecipientStatus.PENDING }] })],
      deadLetters := [], taskDoneCount := 0, events := [] }
    (by decide) rfl rfl (by decide) (by decide) (fun db => rfl)).1

/-- C8: no exception raised by the task body or by the dead-letter write
escapes the per-item processing step — the propagated-exception slot is
always `none`, and `task_done` is reached, so the worker loop proceeds to
its next iteration; the dead-letter write is attempted exactly once when
the task raised and never otherwise (never retried); and when that write
fails the dead-letter table is left unchanged — logged and swallowed. -/
theorem worker_swallows_exceptions (t : TaskItem) (r dlqOk : Bool)
    (now : ℚ) (s : WorkerState) :
    (processItem t r dlqOk now s).2 = none ∧
    (processItem t r dlqOk now s).1.taskDoneCount = s.taskDoneCount + 1 ∧
    (processItem t r dlqOk now s).1.events
      = s.events ++ itemTrace
          ((t.run (if isSmsTask t
              then updateMessageJobStatus (t.firstArgInt.getD 0)
                MessageJobStatus.SENDING s.db
              else s.db)).2.isSome) r ∧
    (dlqOk = false →
      (processItem t r dlqOk now s).1.deadLetters = s.deadLetters) := by
  rw [processItem_eq]
  rcases hr : t.run (if isSmsTask t
      then updateMessageJobStatus (t.firstArgInt.getD 0)
        MessageJobStatus.SENDING s.db
      else s.db) with ⟨db2, err⟩
  cases err with
  | none => simp
  | some e =>
      cases dlqOk with
      | false => simp
      | true => simp

theorem worker_swallows_exceptions_witness :
    (processItem
        { funcName := "process_single_sms_task", firstArgInt := some 1,
          argsRepr := "(1, 91234567)", kwargsRepr := "",
          run := fun db => (db, some { msg := "boom", ty := "RuntimeError" }) }
        true false 0
        { db := [], deadLetters := [], taskDoneCount := 0,
          events := [] }).2 = none ∧
    (processItem
        { funcName := "process_single_sms_task", firstArgInt := some 1,
          argsRepr := "(1, 91234567)", kwargsRepr := "",
          run := fun db => (db, some { msg := "boom", ty := "RuntimeError" }) }
        true false 0
        { db := [], deadLetters := [], taskDoneCount := 0,
          events := [] }).1.deadLetters = [] :=
  ⟨(worker_swallows_exceptions
      { funcName := "process_single_sms_task", firstArgInt := some 1,
        argsRepr := "(1, 91234567)", kwargsRepr := "",
        run := fun db => (db, some { msg := "boom", ty := "RuntimeError" }) }
      true false 0
      { db := [], deadLetters := [], taskDoneCount := 0, events := [] }).1,
   (worker_swallows_exceptions
      { funcName := "process_single_sms_task", firstArgInt := some 1,
        argsRepr := "(1, 91234567)", kwargsRepr := "",
        run := fun db => (db, some { msg := "boom", ty := "RuntimeError" }) }
      true false 0
      { db := [], deadLetters := [], taskDoneCount := 0,
        events := [] }).2.2.2 rfl⟩

/-- C10: the boolean result of `RateLimiter.acquire()` is discarded — the
per-item step's message table, dead-letter table, depth accounting and
propagated-exception slot are identical whatever the acquisition returned,
and the task body is invoked in every case (the item is never skipped,
failed or re-queued on account of a rate-limit timeout). -/
theorem worker_ignores_acquire_result (t : TaskItem) (r1 r2 dlqOk : Bool)
    (now : ℚ) (s : WorkerState) :
    (processItem t r1 dlqOk now s).1.db
        = (processItem t r2 dlqOk now s).1.db ∧
    (processItem t r1 dlqOk now s).1.deadLetters
        = (processItem t r2 dlqOk now s).1.deadLetters ∧
    (processItem t r1 dlqOk now s).1.taskDoneCount
        = (processItem t r2 dlqOk now s).1.taskDoneCount ∧
    (processItem t r1 dlqOk now s).2 = (processItem t r2 dlqOk now s).2 ∧
    WEvent.taskInvoked ∈ (processItem t r1 dlqOk now s).1.events := by
  rw [processItem_eq t r1, processItem_eq t r2]
  rcases hr : t.run (if isSmsTask t
      then updateMessageJobStatus (t.firstArgInt.getD 0)
        MessageJobStatus.SENDING s.db
      else s.db) with ⟨db2, err⟩
  cases err with
  | none => simp [itemTrace]
  | some e => simp [itemTrace]

theorem dlStoreUpdate_cons_eq (k : ℕ) (w v : DeadLetterMessage)
    (rest : DLStore) :
    dlStoreUpdate ((k, w) :: rest) k v = (k, v) :: dlStoreUpdate rest k v := by
  simp [dlStoreUpdate]

theorem dlStoreUpdate_cons_ne (k id : ℕ) (w v : DeadLetterMessage)
    (rest : DLStore) (h : k ≠ id) :
    dlStoreUpdate ((k, w) :: rest) id v
      = (k, w) :: dlStoreUpdate rest id v := by
  simp [dlStoreUpdate, h]

theorem lookup_dlStoreUpdate_self (store : DLStore) (id : ℕ)
    (m v : DeadLetterMessage) (h : store.lookup id = some m) :
    (dlStoreUpdate store id v).lookup id = some v := by
  induction store with
  | nil => simp [List.lookup] at h
  | cons p rest ih =>
      obtain ⟨k, w⟩ := p
      by_cases hk : k = id
      · subst hk
        rw [dlStoreUpdate_cons_eq, lookup_cons_self]
      · rw [lookup_cons_ne k id w rest (Ne.symm hk)] at h
        rw [dlStoreUpdate_cons_ne k id w v rest hk,
          lookup_cons_ne k id w (dlStoreUpdate rest id v) (Ne.symm hk)]
        exact ih h

theorem lookup_dlStoreUpdate_ne (store : DLStore) (id j : ℕ)
    (v : DeadLetterMessage) (h : j ≠ id) :
    (dlStoreUpdate store id v).lookup j = store.lookup j := by
  induction store with
  | nil => simp [dlStoreUpdate]
  | cons p rest ih =>
      obtain ⟨k, w⟩ := p
      by_cases hk : k = id
      · subst hk
        rw [dlStoreUpdate_cons_eq]
        by_cases hj : j = k
        · subst hj
          exact absurd rfl h
        · rw [lookup_cons_ne k j v (dlStoreUpdate rest k v) hj,
            lookup_cons_ne k j w rest hj]
          exact ih
      · rw [dlStoreUpdate_cons_ne k id w v rest hk]
        by_cases hj : j = k
        · subst hj
          rw [lookup_cons_self, lookup_cons_self]
        · rw [lookup_cons_ne k j w (dlStoreUpdate rest id v) hj,
            lookup_cons_ne k j w rest hj]
          exact ih

/-- C7: `retry(id)` returns `false` and leaves the store unchanged
(including `retryCount` and `lastAttemptAt`) when the record is missing,
when `retryCount ≥ maxRetries`, or when the status is not PENDING;
otherwise it returns `true`, increments `retryCount` by exactly one, stamps
`lastAttemptAt`, leaves the status PENDING, and leaves every other record
unchanged. -/
theorem deadLetter_retry_spec (store : DLStore) (id : ℕ) (now : ℚ) :
    (store.lookup id = none →
      DeadLetterQueue.retry store id now = (false, store)) ∧
    (∀ rec : DeadLetterMessage, store.lookup id = some rec →
      rec.max_retries ≤ rec.retry_count ∨ rec.status ≠ DLStatus.pending →
      DeadLetterQueue.retry store id now = (false, store)) ∧
    (∀ rec : DeadLetterMessage, store.lookup id = some rec →
      rec.retry_count < rec.max_retries → rec.status = DLStatus.pending →
      (DeadLetterQueue.retry store id now).1 = true ∧
      ((DeadLetterQueue.retry store id now).2).lookup id
        = some { rec with retry_count := rec.retry_count + 1,
                          last_attempt_at := some now } ∧
      ({ rec with retry_count := rec.retry_count + 1,
                  last_attempt_at := some now } : DeadLetterMessage).status
        = DLStatus.pending ∧
      (∀ j, j ≠ id → ((DeadLetterQueue.retry store id now).2).lookup j
        = store.lookup j)) := by
  refine ⟨?_, ?_, ?_⟩
  · intro hnone
    unfold DeadLetterQueue.retry
    rw [hnone]
  · intro rec hsome hbad
    have hcan : rec.can_retry = false := by
      unfold DeadLetterMessage.can_retry
      rcases hbad with hb | hb
      · simp [Nat.not_lt.2 hb]
      · simp [hb]
    unfold DeadLetterQueue.retry
    rw [hsome]
    dsimp only
    rw [if_neg (by simp [hcan])]
  · intro rec hsome hlt hstat
    have hcan : rec.can_retry = true := by
      unfold DeadLetterMessage.can_retry
      simp [hlt, hstat]
    unfold DeadLetterQueue.retry
    rw [hsome]
    dsimp only
    rw [if_pos (by simp [hcan])]
    refine ⟨rfl, ?_, hstat, ?_⟩
    · exact lookup_dlStoreUpdate_self store id rec _ hsome
    · intro j hj
      exact lookup_dlStoreUpdate_ne store id j _ hj

theorem deadLetter_retry_spec_witness :
    (DeadLetterQueue.retry
        [(5, { message_id := some 1, recipient := "91234567", content := "hi",
               error_message := "boom", error_type := "RuntimeError",
               retry_count := 1, max_retries := 3,
               status := DLStatus.pending, created_at := 0,
               retried_at := none, last_attempt_at := none })]
        5 2).1 = true ∧
    ((DeadLetterQueue.retry
        [(5, { message_id := some 1, recipient := "91234567", content := "hi",
               error_message := "boom", error_type := "RuntimeError",
               retry_count := 1, max_retries := 3,
               status := DLStatus.pending, created_at := 0,
               retried_at := none, last_attempt_at := none })]
        5 2).2).lookup 5
      = some { message_id := some 1, recipient := "91234567", content := "hi",
               error_message := "boom", error_type := "RuntimeError",
               retry_count := 2, max_retries := 3,
               status := DLStatus.pending, created_at := 0,
               retried_at := none, last_attempt_at := some 2 } := by
  have h := (deadLetter_retry_spec
    [(5, { message_id := some 1, recipient := "91234567", content := "hi",
           error_message := "boom", error_type := "RuntimeError",
           retry_count := 1, max_retries := 3,
           status := DLStatus.pending, created_at := 0,
           retried_at := none, last_attempt_at := none })]
    5 2).2.2
    { message_id := some 1, recipient := "91234567", content := "hi",
      error_message := "boom", error_type := "RuntimeError",
      retry_count := 1, max_retries := 3,
      status := DLStatus.pending, created_at := 0,
      retried_at := none, last_attempt_at := none }
    rfl (by decide) rfl
  exact ⟨h.1, h.2.1⟩
